import Mathlib

/-!
# Verification of `mustard/window.go`

A shallow embedding of the window / event / compositing core of the `mustard`
toolkit, followed by theorems about it.

Conventions of the embedding

* Go `int` is `Int`. The only sums formed are `len(value) + cursorPosition` in the
  text callbacks, where the length is non-negative; for the offsets the theorems
  speak of they stay within 64 bits. A Go `string` is its byte sequence.
* A run-time panic (slice bounds, nil dereference) is the result `none`.
* A pointer field is an `Option` of the value it points to; `nil` is `none`.
* A Go slice held in a window field is the list of its elements; the one function
  that re-slices while iterating (`RemoveStaticOverlay`) is modelled on the backing
  array.
-/

namespace Mustard

/-! ## Go strings -/

/-- A Go `string`: an immutable sequence of bytes; `len` is the number of bytes. -/
abbrev GoString := List UInt8

/-- The slice expression `s[lo:hi]` on a string. It panics unless
`0 ≤ lo ≤ hi ≤ len(s)`. -/
def sliceStr (s : GoString) (lo hi : Int) : Option GoString :=
  if 0 ≤ lo ∧ lo ≤ hi ∧ hi ≤ (s.length : Int) then
    some ((s.take hi.toNat).drop lo.toNat)
  else none

/-- The conversion `string(r)` of a rune: the UTF-8 encoding of the code point, and
the encoding of U+FFFD for a value that is not a valid code point. -/
def runeToString (r : Int) : GoString :=
  if r < 0 ∨ 0x10FFFF < r ∨ (0xD800 ≤ r ∧ r ≤ 0xDFFF) then [0xEF, 0xBF, 0xBD]
  else
    let n := r.toNat
    if n < 0x80 then [UInt8.ofNat n]
    else if n < 0x800 then
      [UInt8.ofNat (0xC0 + n / 64), UInt8.ofNat (0x80 + n % 64)]
    else if n < 0x10000 then
      [UInt8.ofNat (0xE0 + n / 4096), UInt8.ofNat (0x80 + n / 64 % 64),
        UInt8.ofNat (0x80 + n % 64)]
    else
      [UInt8.ofNat (0xF0 + n / 262144), UInt8.ofNat (0x80 + n / 4096 % 64),
        UInt8.ofNat (0x80 + n / 64 % 64), UInt8.ofNat (0x80 + n % 64)]

/-! ## float32 scale arithmetic -/

/-- A finite `float32` value `m * 2 ^ e`. Infinities, NaN and the limits of the
exponent range are outside the model; content scales and window sizes are far from
them. -/
structure F32 where
  m : Int
  e : Int

/-- Number of binary digits of `n`, by repeated halving (`fuel` bounds the number of
halvings). -/
def bitLenAux : Nat → Nat → Nat
  | 0, _ => 0
  | fuel + 1, n => if n = 0 then 0 else bitLenAux fuel (n / 2) + 1

/-- Number of binary digits of a natural number. -/
def bitLen (n : Nat) : Nat := bitLenAux n n

/-- Rounding of the exact value `m * 2 ^ e` to a 24-bit significand, ties to even:
the rounding every float32 operation applies to its exact result. -/
def F32.round (m e : Int) : F32 :=
  let a := m.natAbs
  let k := bitLen a - 24
  if k = 0 then ⟨m, e⟩
  else
    let q := a / 2 ^ k
    let r := a % 2 ^ k
    let half := 2 ^ (k - 1)
    let q1 := if half < r ∨ (r = half ∧ q % 2 = 1) then q + 1 else q
    ⟨m.sign * (q1 : Int), e + (k : Int)⟩

/-- The conversion `float32(n)` of an `int`. -/
def F32.ofInt (n : Int) : F32 := F32.round n 0

/-- The float32 product `a * b`. -/
def F32.mul (a b : F32) : F32 := F32.round (a.m * b.m) (a.e + b.e)

/-- The conversion `int(f)`: the fraction is discarded (truncation toward zero). -/
def F32.toInt (f : F32) : Int :=
  if 0 ≤ f.e then f.m * 2 ^ f.e.toNat
  else f.m.sign * ((f.m.natAbs / 2 ^ (-f.e).toNat : Nat) : Int)

/-- The float32 constant `1`. -/
def F32.one : F32 := ⟨1, 0⟩

/-- The expression `int(float32(n) * scale)` of `CreateNewWindow` and of the size
callback. -/
def scaleDim (n : Int) (scale : F32) : Int := F32.toInt (F32.mul (F32.ofInt n) scale)

/-! ## Images (`image`, `image/draw`) -/

/-- Go `image.Point`. -/
structure Point where
  X : Int
  Y : Int
  deriving DecidableEq

/-- Go `image.Rectangle`: the points with `Min.X ≤ x < Max.X`, `Min.Y ≤ y < Max.Y`. -/
structure Rectangle where
  Min : Point
  Max : Point
  deriving DecidableEq

/-- The point `image.ZP`. -/
def ZP : Point := ⟨0, 0⟩

/-- Membership `p.In(r)`. -/
def Point.In (x y : Int) (r : Rectangle) : Bool :=
  decide (r.Min.X ≤ x) && decide (x < r.Max.X) && decide (r.Min.Y ≤ y) && decide (y < r.Max.Y)

/-- Translation `r.Add(p)`. -/
def Rectangle.Add (r : Rectangle) (p : Point) : Rectangle :=
  ⟨⟨r.Min.X + p.X, r.Min.Y + p.Y⟩, ⟨r.Max.X + p.X, r.Max.Y + p.Y⟩⟩

/-- The constructor `image.Rect(x0, y0, x1, y1)`, which orders the coordinates. -/
def Rect (x0 y0 x1 y1 : Int) : Rectangle :=
  ⟨⟨min x0 x1, min y0 y1⟩, ⟨max x0 x1, max y0 y1⟩⟩

/-- Go `color.RGBA`: four 8-bit channels, alpha-premultiplied. -/
structure Color where
  R : Fin 256
  G : Fin 256
  B : Fin 256
  A : Fin 256
  deriving DecidableEq

/-- The zero colour (transparent black), the content of a freshly allocated image. -/
def Color.zero : Color := ⟨0, 0, 0, 0⟩

/-- Go `*image.RGBA`, by its bounds and the colour of each pixel. `Pix x y` is
meaningful for the points of `Rect`. -/
structure Image where
  Rect : Rectangle
  Pix : Int → Int → Color

/-- The allocation `image.NewRGBA(r)`: every pixel is zero. -/
def NewRGBA (r : Rectangle) : Image := ⟨r, fun _ _ => Color.zero⟩

/-- One channel of the source-over operator of `image/draw` for RGBA on RGBA:
`uint8((d*a/m + s*0x101) >> 8)` with `m = 0xffff` and `a = (m - sa*0x101) * 0x101`,
computed in `uint32`. -/
def overChannel (s sa d : Fin 256) : Fin 256 :=
  Fin.ofNat (((d.val * ((65535 - sa.val * 257) * 257) % 4294967296 / 65535
    + s.val * 257) % 4294967296) / 256)

/-- Source-over composition of a source pixel onto a destination pixel. -/
def over (s d : Color) : Color :=
  ⟨overChannel s.R s.A d.R, overChannel s.G s.A d.G, overChannel s.B s.A d.B,
    overChannel s.A s.A d.A⟩

/-- The call `draw.Draw(dst, r, src, sp, draw.Over)`: `r.Min` in `dst` is aligned
with `sp` in `src`; `r` is clipped to the bounds of `dst` and to the translated
bounds of `src`; each remaining pixel of `dst` receives `src` over it. -/
def drawOver (dst : Image) (r : Rectangle) (src : Image) (sp : Point) : Image :=
  { Rect := dst.Rect
    Pix := fun x y =>
      if Point.In x y r && Point.In x y dst.Rect
          && Point.In (x - r.Min.X + sp.X) (y - r.Min.Y + sp.Y) src.Rect then
        over (src.Pix (x - r.Min.X + sp.X) (y - r.Min.Y + sp.Y)) (dst.Pix x y)
      else dst.Pix x y }

/-- Two images are pixel-identical: same bounds, same colour at every point of the
bounds. -/
def Image.Same (a b : Image) : Prop :=
  a.Rect = b.Rect ∧ ∀ x y, Point.In x y a.Rect = true → a.Pix x y = b.Pix x y

/-! ## Collaborators declared outside `window.go` -/

/-- Modelled from the spec: the `Widget` interface and its implementations are
declared outside `window.go`. A widget is a tree node with a dirty flag
(`NeedsRepaint`, `SetNeedsRepaint`), a computed box (`ComputedBox().GetCoords()`
gives top, left, width, height), a pixel buffer of its own (`Buffer`) and the
ordered list of its children (`Widgets`). -/
inductive Widget where
  | mk (needsRepaint : Bool) (top left width height : Int) (buffer : Image)
      (widgets : List Widget)

/-- The method `NeedsRepaint()`. -/
def Widget.NeedsRepaint : Widget → Bool
  | .mk d _ _ _ _ _ _ => d

/-- The method `Buffer()`. -/
def Widget.Buffer : Widget → Image
  | .mk _ _ _ _ _ b _ => b

/-- The method `Widgets()`. -/
def Widget.Widgets : Widget → List Widget
  | .mk _ _ _ _ _ _ ws => ws

/-- The method `SetNeedsRepaint(v)`. -/
def Widget.SetNeedsRepaint (v : Bool) : Widget → Widget
  | .mk _ t l w h b ws => .mk v t l w h b ws

/-- The rectangle `image.Rectangle{Point{left, top}, Point{left + width, top + height}}`
built by `compositeWidget` from `ComputedBox().GetCoords()`. -/
def Widget.boxRect : Widget → Rectangle
  | .mk _ t l w h _ _ => ⟨⟨l, t⟩, ⟨l + w, t + h⟩⟩

/-- The widget with its children replaced (the state of the children after the
loop of `compositeAll` has visited them). -/
def Widget.withWidgets (ws : List Widget) : Widget → Widget
  | .mk d t l w h b _ => .mk d t l w h b ws

/-- Modelled from the spec: the `InputWidget` type is declared outside
`window.go`; these are the fields `window.go` reads and writes. -/
structure InputWidget where
  value : GoString
  cursorPosition : Int
  active : Bool
  selected : Bool
  needsRepaint : Bool
  deriving DecidableEq

/-- Modelled from the spec: a registered button; `window.go` only stores the
reference. -/
structure ButtonWidget where
  id : Nat
  deriving DecidableEq

/-- Modelled from the spec: a registered tree; `window.go` only stores the
reference. -/
structure TreeWidget where
  id : Nat
  deriving DecidableEq

/-- The `Overlay` fields that `window.go` reads after construction: the reference,
the active flag, the position and the pixel buffer. -/
structure Overlay where
  ref : String
  active : Bool
  position : Point
  buffer : Image

/-- Modelled from the spec: the graphics context of package `gg`, by the image
`Image()` returns. -/
structure Context where
  im : Image

/-- Modelled from the spec: `gg.NewContext(width, height)` allocates an RGBA image
with bounds `image.Rect(0, 0, width, height)`. -/
def NewContext (width height : Int) : Context := ⟨NewRGBA (Rect 0 0 width height)⟩

/-- The GL backend, by the one field `window.go` uses: the texture name. -/
structure GLBackend where
  texture : Nat
  deriving DecidableEq

/-- The native surface `*glfw.Window`, by the content scale `GetContentScale()`
reports. -/
structure GlfwWindow where
  xscale : F32
  yscale : F32

/-- The standard cursors `glfw.CreateStandardCursor` creates. -/
inductive Cursor where
  | ArrowCursor
  | HandCursor
  deriving DecidableEq

/-- The key actions of glfw. -/
inductive Action where
  | Release
  | Press
  | Repeat
  deriving DecidableEq

/-! ## The window -/

/-- The fields of `Window` that `window.go` uses (the cursor coordinates and the
listener lists, which none of the functions below touches, are left out). -/
structure Window where
  title : String
  width : Int
  height : Int
  hiDPI : Bool
  glw : Option GlfwWindow
  context : Option Context
  backend : Option GLBackend
  frameBuffer : Option Image
  defaultCursor : Option Cursor
  pointerCursor : Option Cursor
  visible : Bool
  needsReflow : Bool
  rootFrame : Option Widget
  registeredButtons : List ButtonWidget
  registeredInputs : List InputWidget
  registeredTrees : List TreeWidget
  activeInput : Option InputWidget
  overlays : List Overlay
  staticOverlays : List Overlay
  hasActiveOverlay : Bool
  hasStaticOverlay : Bool

/-- `Window.RecreateContext`. -/
def RecreateContext (window : Window) : Window :=
  { window with context := some (NewContext window.width window.height) }

/-- `Window.Show`; the call `window.glw.Show()` dereferences the surface. -/
def Show (window : Window) : Option Window :=
  match window.glw with
  | none => none
  | some _ => some { window with needsReflow := true, visible := true }

/-- `Window.SetRootFrame`. -/
def SetRootFrame (frame : Option Widget) (window : Window) : Window :=
  { window with rootFrame := frame }

/-- `Window.RequestReflow`. -/
def RequestReflow (window : Window) : Window :=
  { window with needsReflow := true }

/-- `Window.destroy`. The call `window.glw.Destroy()` dereferences the surface, so
a window whose surface is already nil panics; the final `window = nil` only
rebinds the local receiver. -/
def destroy (window : Window) : Option Window :=
  match window.glw with
  | none => none
  | some _ =>
    some { window with
      visible := false
      glw := none
      context := none
      backend := none
      frameBuffer := none
      defaultCursor := none
      pointerCursor := none
      registeredButtons := []
      registeredInputs := []
      activeInput := none
      rootFrame := none }

/-! ## Text editing callbacks of `addEvents` -/

/-- The char callback installed by `addEvents` (`SetCharCallback`). -/
def charCallback (char : Int) (window : Window) : Option Window :=
  match window.activeInput with
  | none => some window
  | some input =>
    let inputVal := input.value
    let cursorPos := input.cursorPosition
    match sliceStr inputVal 0 ((inputVal.length : Int) + cursorPos),
        sliceStr inputVal ((inputVal.length : Int) + cursorPos) inputVal.length with
    | some before, some after =>
      some { window with
        activeInput := some { input with
          value := before ++ runeToString char ++ after
          needsRepaint := true } }
    | _, _ => none

/-- The `glfw.KeyBackspace` case of the key callback installed by `addEvents`. -/
def keyBackspace (action : Action) (window : Window) : Option Window :=
  if action = Action.Repeat ∨ action = Action.Release then
    match window.activeInput with
    | none => some window
    | some input =>
      if 0 < input.value.length then
        if input.cursorPosition = 0 then
          match sliceStr input.value 0 ((input.value.length : Int) - 1) with
          | some v =>
            some { window with activeInput := some { input with value := v, needsRepaint := true } }
          | none => none
        else
          let inputVal := input.value
          let cursorPos := input.cursorPosition
          if 0 < cursorPos + (inputVal.length : Int) then
            match sliceStr inputVal 0 ((inputVal.length : Int) + cursorPos - 1),
                sliceStr inputVal ((inputVal.length : Int) + cursorPos) inputVal.length with
            | some before, some after =>
              some { window with
                activeInput := some { input with value := before ++ after, needsRepaint := true } }
            | _, _ => none
          else
            some { window with activeInput := some { input with needsRepaint := true } }
      else some window
  else some window

/-- The `glfw.KeyV` case of the key callback installed by `addEvents`; `ctrl` says
whether the modifiers are exactly `glfw.ModControl`, `clipboard` is the string
`glfw.GetClipboardString()` returns. -/
def keyV (action : Action) (ctrl : Bool) (clipboard : GoString) (window : Window) :
    Option Window :=
  if action = Action.Release ∧ ctrl = true then
    match window.activeInput with
    | none => some window
    | some input =>
      if input.cursorPosition = 0 then
        some { window with
          activeInput := some { input with value := input.value ++ clipboard, needsRepaint := true } }
      else
        let inputVal := input.value
        let cursorPos := input.cursorPosition
        match sliceStr inputVal 0 ((inputVal.length : Int) + cursorPos),
            sliceStr inputVal ((inputVal.length : Int) + cursorPos) inputVal.length with
        | some before, some after =>
          some { window with
            activeInput := some { input with
              value := before ++ clipboard ++ after
              needsRepaint := true } }
        | _, _ => none
  else some window

/-! ## Overlay registration -/

/-- `Window.AddOverlay`. -/
def AddOverlay (overlay : Overlay) (window : Window) : Window :=
  { window with overlays := window.overlays ++ [overlay], hasActiveOverlay := true }

/-- `Window.RemoveOverlay`. The overlay is compared by pointer; `found` is the
index of the first element of the list that is this very overlay, if any. -/
def RemoveOverlay (found : Option Nat) (window : Window) : Window :=
  let overlays :=
    match found with
    | some idx =>
      if idx < window.overlays.length then
        window.overlays.take idx ++ window.overlays.drop (idx + 1)
      else window.overlays
    | none => window.overlays
  { window with
    overlays := overlays
    hasActiveOverlay := if overlays.length < 1 then false else window.hasActiveOverlay }

/-- `Window.AddStaticOverlay`. -/
def AddStaticOverlay (overlay : Overlay) (window : Window) : Window :=
  { window with
    staticOverlays := window.staticOverlays ++ [overlay]
    hasStaticOverlay := true }

/-- One iteration of the loop of `RemoveStaticOverlay`, on the backing array `arr`
of the slice and the current length `len` of `window.staticOverlays`. The `range`
clause fixed the number of iterations before the loop and reads `arr[idx]` from the
backing array (always in range: the array keeps its length). On a match,
`window.staticOverlays[idx+1:]` panics when `idx + 1 > len`; otherwise `append`
has room in the array, moves the elements `idx+1 .. len-1` one place down inside it
and the slice gets one shorter. -/
def removeStaticStep (ref : String) (st : List Overlay × Nat) (idx : Nat) :
    Option (List Overlay × Nat) :=
  match st.1.get? idx with
  | none => none
  | some cOverlay =>
    if cOverlay.ref = ref then
      if idx + 1 ≤ st.2 then
        some (st.1.take idx ++ (st.1.drop (idx + 1)).take (st.2 - (idx + 1))
          ++ st.1.drop (st.2 - 1), st.2 - 1)
      else none
    else some st

/-- `Window.RemoveStaticOverlay`. The backing array is taken to be the elements of
the slice at entry: cells of a larger array beyond that length are neither read nor
written by the loop. -/
def RemoveStaticOverlay (ref : String) (window : Window) : Option Window :=
  match (List.range window.staticOverlays.length).foldlM (removeStaticStep ref)
      (window.staticOverlays, window.staticOverlays.length) with
  | none => none
  | some (arr, len) =>
    let staticOverlays := arr.take len
    some { window with
      staticOverlays := staticOverlays
      hasStaticOverlay := if staticOverlays.length < 1 then false else window.hasStaticOverlay }

/-! ## Compositing -/

/-- `compositeWidget`. -/
def compositeWidget (buffer : Image) (widget : Widget) : Image × Widget :=
  if widget.NeedsRepaint then
    (drawOver buffer widget.boxRect widget.Buffer ⟨0, 0⟩, widget.SetNeedsRepaint false)
  else (buffer, widget)

mutual
/-- `compositeAll`: the widget itself, then its children in list order. -/
def compositeAll (buffer : Image) : Widget → Image × Widget
  | .mk d t l w h b ws =>
    let r := compositeWidget buffer (.mk d t l w h b ws)
    let rs := compositeChildren r.1 ws
    (rs.1, r.2.withWidgets rs.2)
/-- The loop `for _, childWidget := range widget.Widgets()` of `compositeAll`. -/
def compositeChildren (buffer : Image) : List Widget → Image × List Widget
  | [] => (buffer, [])
  | c :: cs =>
    let r := compositeAll buffer c
    let rs := compositeChildren r.1 cs
    (rs.1, r.2 :: rs.2)
end

/-- The call `draw.Draw(frameBuffer, overlay.buffer.Bounds().Add(overlay.position),
overlay.buffer, image.ZP, draw.Over)` of `generateTexture`. -/
def blendOverlay (frameBuffer : Image) (overlay : Overlay) : Image :=
  drawOver frameBuffer (overlay.buffer.Rect.Add overlay.position) overlay.buffer ZP

/-- The fresh buffer of `generateTexture`: `image.NewRGBA(frameBuffer.Bounds())`
with the frame buffer drawn over it. -/
def freshCopy (frameBuffer : Image) : Image :=
  drawOver (NewRGBA frameBuffer.Rect) frameBuffer.Rect frameBuffer ZP

/-- `Window.generateTexture`; `tex` is the texture name `gl.GenTextures` hands out.
The frame buffer starts as the very image of the context, so what `compositeAll`
draws lands in the context image as well. -/
def generateTexture (tex : Nat) (window : Window) : Option Window :=
  match window.backend, window.context with
  | some backend, some context =>
    let composited :=
      match window.rootFrame with
      | some rootFrame =>
        let r := compositeAll context.im rootFrame
        (r.1, some r.2)
      | none => (context.im, none)
    let frameBuffer := composited.1
    let frameBuffer :=
      if window.hasStaticOverlay then
        window.staticOverlays.foldl blendOverlay (freshCopy frameBuffer)
      else frameBuffer
    let frameBuffer :=
      if window.hasActiveOverlay then
        window.overlays.foldl blendOverlay (freshCopy frameBuffer)
      else frameBuffer
    some { window with
      context := some { context with im := composited.1 }
      rootFrame := composited.2
      frameBuffer := some frameBuffer
      backend := some { backend with texture := tex } }
  | _, _ => none

/-! ## Creation and resize -/

/-- `CreateNewWindow`. `glw` is the surface `glfw.CreateWindow` returns (nil on
error, and then no window is returned), `backend` is the result of
`createGLBackend()`, `tex` the texture name of the first `generateTexture`. -/
def CreateNewWindow (title : String) (width height : Int) (hiDPI : Bool)
    (glw : Option GlfwWindow) (backend : GLBackend) (tex : Nat) : Option Window :=
  match glw with
  | none => none
  | some surface =>
    let xscale := if hiDPI then surface.xscale else F32.one
    let yscale := if hiDPI then surface.yscale else F32.one
    let window : Window :=
      { title := title
        width := scaleDim width xscale
        height := scaleDim height yscale
        hiDPI := hiDPI
        glw := some surface
        context := none
        backend := none
        frameBuffer := none
        defaultCursor := some Cursor.ArrowCursor
        pointerCursor := some Cursor.HandCursor
        visible := false
        needsReflow := false
        rootFrame := none
        registeredButtons := []
        registeredInputs := []
        registeredTrees := []
        activeInput := none
        overlays := []
        staticOverlays := []
        hasActiveOverlay := false
        hasStaticOverlay := false }
    let window := RecreateContext window
    let window := { window with backend := some backend }
    generateTexture tex window

/-- The size callback installed by `addEvents` (`SetSizeCallback`); `w` is the
surface that reports the resize. -/
def sizeCallback (w : GlfwWindow) (width height : Int) (window : Window) : Window :=
  let xscale := if window.hiDPI then w.xscale else F32.one
  let yscale := if window.hiDPI then w.yscale else F32.one
  let swidth := scaleDim width xscale
  let sheight := scaleDim height yscale
  let window := { window with width := swidth, height := sheight }
  let window := RecreateContext window
  { window with needsReflow := true }

/-! ## Registration of interactive elements -/

/-- `Window.RegisterTree`. -/
def RegisterTree (tree : TreeWidget) (window : Window) : Window :=
  { window with registeredTrees := window.registeredTrees ++ [tree] }

/-- `Window.RegisterButton` (the callback stored in the button is not modelled). -/
def RegisterButton (button : ButtonWidget) (window : Window) : Window :=
  { window with registeredButtons := window.registeredButtons ++ [button] }

/-- `Window.RegisterInput`. -/
def RegisterInput (input : InputWidget) (window : Window) : Window :=
  { window with registeredInputs := window.registeredInputs ++ [input] }

/-! ## Vocabulary of the statements -/

/-- The text value of the active input, if any. -/
def activeValue (window : Window) : Option GoString :=
  window.activeInput.map InputWidget.value

/-- The references of the static overlays of a window, in list order. -/
def staticRefs (window : Window) : List String := window.staticOverlays.map Overlay.ref

/-- The references of the dynamic overlays of a window, in list order. -/
def overlayRefs (window : Window) : List String := window.overlays.map Overlay.ref

/-- The colour of the pixel `(x, y)` of the frame buffer of a window, if it has a
frame buffer. -/
def framePixel (window : Option Window) (x y : Int) : Option Color :=
  (window.bind (fun w => w.frameBuffer)).map (fun frameBuffer => frameBuffer.Pix x y)

mutual
/-- The widgets of a tree in depth-first pre-order: a widget before its children,
the children in list order. -/
def Widget.preorder : Widget → List Widget
  | .mk d t l w h b ws => .mk d t l w h b ws :: preorderList ws
/-- The pre-order of a list of sibling trees. -/
def preorderList : List Widget → List Widget
  | [] => []
  | c :: cs => c.preorder ++ preorderList cs
end

mutual
/-- The tree with the dirty flag of every widget cleared. -/
def Widget.cleared : Widget → Widget
  | .mk _ t l w h b ws => .mk false t l w h b (clearedList ws)
/-- The list of trees with the dirty flag of every widget cleared. -/
def clearedList : List Widget → List Widget
  | [] => []
  | c :: cs => c.cleared :: clearedList cs
end

/-- One widget blended source-over into the buffer at the rectangle of its computed
box. -/
def blendWidget (buffer : Image) (widget : Widget) : Image :=
  drawOver buffer widget.boxRect widget.Buffer ⟨0, 0⟩

/-- No widget of the tree needs repaint. -/
def Widget.allClean (widget : Widget) : Bool :=
  widget.preorder.all (fun n => !n.NeedsRepaint)

/-- The context image after the tree of the window has been composited into it. -/
def treeComposited (context : Context) (rootFrame : Option Widget) : Image :=
  match rootFrame with
  | some root => (compositeAll context.im root).1
  | none => context.im

/-- One overlay pass of `generateTexture`: when the flag is set, a fresh copy of the
frame buffer with the overlays of the list blended on top in list order; the frame
buffer itself otherwise. -/
def overlayPass (flag : Bool) (overlays : List Overlay) (frameBuffer : Image) : Image :=
  if flag then overlays.foldl blendOverlay (freshCopy frameBuffer) else frameBuffer

/-- The overlay flags agree with the overlay lists: a non-empty list has its flag
set. `AddOverlay`, `RemoveOverlay`, `AddStaticOverlay` and `RemoveStaticOverlay`
keep it that way. -/
def flagsCover (window : Window) : Prop :=
  (window.staticOverlays ≠ [] → window.hasStaticOverlay = true)
  ∧ (window.overlays ≠ [] → window.hasActiveOverlay = true)

/-- The nearest integer to a float32 value, halves away from zero: the `round` of
the specification. -/
def F32.roundToInt (f : F32) : Int :=
  if 0 ≤ f.e then f.m * 2 ^ f.e.toNat
  else f.m.sign *
    (((f.m.natAbs + 2 ^ ((-f.e).toNat - 1)) / 2 ^ (-f.e).toNat : Nat) : Int)

/-- The device size the specification states: `round(n × scale)`. -/
def roundedDim (n : Int) (scale : F32) : Int := F32.roundToInt (F32.mul (F32.ofInt n) scale)

/-! ## Concrete states used in the instances -/

/-- The zero value of `Window`: every field nil, empty or false. -/
def zeroWindow : Window :=
  { title := ""
    width := 0
    height := 0
    hiDPI := false
    glw := none
    context := none
    backend := none
    frameBuffer := none
    defaultCursor := none
    pointerCursor := none
    visible := false
    needsReflow := false
    rootFrame := none
    registeredButtons := []
    registeredInputs := []
    registeredTrees := []
    activeInput := none
    overlays := []
    staticOverlays := []
    hasActiveOverlay := false
    hasStaticOverlay := false }

/-- A window whose active input holds `value` with cursor offset `cursorPosition`
and a clean dirty flag. -/
def inputWindow (value : GoString) (cursorPosition : Int) : Window :=
  { zeroWindow with activeInput := some ⟨value, cursorPosition, true, true, false⟩ }

/-- An overlay with reference `ref`, positioned at the origin, with a 1x1 buffer. -/
def overlayWithRef (ref : String) : Overlay := ⟨ref, true, ZP, NewRGBA (Rect 0 0 1 1)⟩

/-- The window reached from the zero window by `AddStaticOverlay` of one overlay
per reference, in order. -/
def staticWindow (refs : List String) : Window :=
  refs.foldl (fun window ref => AddStaticOverlay (overlayWithRef ref) window) zeroWindow

/-- A surface that reports the content scale 1.0 on both axes. -/
def unitSurface : GlfwWindow := ⟨F32.one, F32.one⟩

/-- A surface that reports the content scale 1.25 (the value `5 * 2 ^ (-2)`) on both
axes. -/
def scaledSurface : GlfwWindow := ⟨⟨5, -2⟩, ⟨5, -2⟩⟩

/-- A window created at 800x600 without hiDPI, then given one registered tree, one
registered button, one dynamic overlay "menu" and one static overlay "chrome". -/
def furnishedWindow : Option Window :=
  (CreateNewWindow "main" 800 600 false (some unitSurface) ⟨0⟩ 1).map
    (fun window =>
      AddStaticOverlay (overlayWithRef "chrome")
        (AddOverlay (overlayWithRef "menu")
          (RegisterButton ⟨2⟩ (RegisterTree ⟨1⟩ window))))

/-- A 2x2 widget buffer filled with one opaque colour. -/
def solidImage (c : Color) : Image := ⟨Rect 0 0 2 2, fun _ _ => c⟩

/-- A small tree: a clean root with a dirty child and a clean grandchild. -/
def sampleTree : Widget :=
  .mk false 0 0 4 4 (solidImage ⟨10, 10, 10, 255⟩)
    [.mk true 1 1 2 2 (solidImage ⟨200, 0, 0, 255⟩)
      [.mk false 1 1 1 1 (solidImage ⟨0, 200, 0, 255⟩) []]]

/-- A live window with a 4x4 context, the sample tree, one static and one dynamic
overlay. -/
def sampleWindow : Window :=
  { zeroWindow with
    width := 4
    height := 4
    glw := some unitSurface
    context := some (NewContext 4 4)
    backend := some ⟨0⟩
    rootFrame := some sampleTree
    staticOverlays := [⟨"chrome", true, ⟨0, 0⟩, solidImage ⟨255, 0, 0, 255⟩⟩]
    hasStaticOverlay := true
    overlays := [⟨"menu", true, ⟨1, 1⟩, solidImage ⟨0, 0, 255, 255⟩⟩]
    hasActiveOverlay := true }

/-- The sample window with every widget of its tree clean. -/
def cleanWindow : Window := { sampleWindow with rootFrame := some sampleTree.cleared }

/-! ## Slices of strings -/

theorem sliceStr_front (s : GoString) (hi : Int) (h0 : 0 ≤ hi) (h1 : hi ≤ (s.length : Int)) :
    sliceStr s 0 hi = some (s.take hi.toNat) := by
  unfold sliceStr
  rw [if_pos ⟨le_refl 0, h0, h1⟩]
  simp

theorem sliceStr_back (s : GoString) (lo : Int) (h0 : 0 ≤ lo) (h1 : lo ≤ (s.length : Int)) :
    sliceStr s lo s.length = some (s.drop lo.toNat) := by
  unfold sliceStr
  rw [if_pos ⟨h0, h1, le_refl _⟩]
  simp

theorem sliceStr_none_of_neg (s : GoString) (lo hi : Int) (h : lo < 0) :
    sliceStr s lo hi = none := by
  unfold sliceStr
  rw [if_neg]
  omega

theorem sliceStr_none_of_gt (s : GoString) (lo hi : Int) (h : (s.length : Int) < hi) :
    sliceStr s lo hi = none := by
  unfold sliceStr
  rw [if_neg]
  omega

/-! ## Character input -/

/-- C3. With an active input whose end-relative cursor offset `c` satisfies
`-len(v) ≤ c ≤ 0`, character input succeeds and replaces the value `v` by
`v[:len(v)+c] ++ string(char) ++ v[len(v)+c:]`, leaves the cursor offset and every
other field unchanged and sets the dirty flag of the input; with no active input
the window is unchanged; on "abc" with offset -1 the character 'X' gives "abXc". -/
theorem charCallback_inserts_at_cursor (window : Window) (char : Int) :
    (∀ input : InputWidget, window.activeInput = some input →
      -(input.value.length : Int) ≤ input.cursorPosition → input.cursorPosition ≤ 0 →
      charCallback char window = some { window with
        activeInput := some { input with
          value :=
            input.value.take ((input.value.length : Int) + input.cursorPosition).toNat
              ++ runeToString char
              ++ input.value.drop ((input.value.length : Int) + input.cursorPosition).toNat
          needsRepaint := true } })
    ∧ (window.activeInput = none → charCallback char window = some window)
    ∧ (charCallback 0x58 (inputWindow [0x61, 0x62, 0x63] (-1))).bind
        (fun w => w.activeInput) = some ⟨[0x61, 0x62, 0x58, 0x63], -1, true, true, true⟩ := by
  refine ⟨?_, ?_, by decide⟩
  · intro input hactive hlo hhi
    simp only [charCallback, hactive]
    rw [sliceStr_front _ _ (by omega) (by omega), sliceStr_back _ _ (by omega) (by omega)]
  · intro hnone
    simp only [charCallback, hnone]

/-- The instance of C3 from the specification: "abc", offset -1, character 'X'. -/
theorem charCallback_inserts_at_cursor_witness :
    charCallback 0x58 (inputWindow [0x61, 0x62, 0x63] (-1))
      = some { inputWindow [0x61, 0x62, 0x63] (-1) with
          activeInput := some ⟨[0x61, 0x62, 0x58, 0x63], -1, true, true, true⟩ } :=
  (charCallback_inserts_at_cursor (inputWindow [0x61, 0x62, 0x63] (-1)) 0x58).1
    ⟨[0x61, 0x62, 0x63], -1, true, true, false⟩ rfl (by decide) (by decide)

/-! ## Backspace -/

/-- C4. With an active input whose value `v` is non-empty and whose cursor offset
`c` satisfies `-len(v) < c ≤ 0`, a backspace with action repeat or release succeeds
and yields `v[:len(v)+c-1] ++ v[len(v)+c:]`: the value was
`v[:len(v)+c-1] ++ [x] ++ v[len(v)+c:]` for one byte `x`, the one just before the
cursor, and only `x` is gone. The cursor offset and all other fields are unchanged
and the dirty flag is set. With an empty value a backspace leaves the whole window
unchanged. On "abc" with offset 0 the result is "ab". -/
theorem keyBackspace_deletes_before_cursor (window : Window) (input : InputWidget)
    (action : Action) (hactive : window.activeInput = some input) :
    (action = Action.Repeat ∨ action = Action.Release →
      input.value ≠ [] →
      -(input.value.length : Int) < input.cursorPosition → input.cursorPosition ≤ 0 →
      keyBackspace action window = some { window with
        activeInput := some { input with
          value :=
            input.value.take ((input.value.length : Int) + input.cursorPosition - 1).toNat
              ++ input.value.drop ((input.value.length : Int) + input.cursorPosition).toNat
          needsRepaint := true } }
      ∧ ∃ x, input.value =
          input.value.take ((input.value.length : Int) + input.cursorPosition - 1).toNat
            ++ x :: input.value.drop ((input.value.length : Int) + input.cursorPosition).toNat)
    ∧ (input.value = [] → keyBackspace action window = some window)
    ∧ (keyBackspace Action.Release (inputWindow [0x61, 0x62, 0x63] 0)).bind
        (fun w => w.activeInput) = some ⟨[0x61, 0x62], 0, true, true, true⟩ := by
  refine ⟨?_, ?_, by decide⟩
  · intro hact hne hlo hhi
    have hlen : 0 < input.value.length := List.length_pos.mpr hne
    constructor
    · simp only [keyBackspace, hactive, if_pos hact, if_pos hlen]
      by_cases hc : input.cursorPosition = 0
      · rw [if_pos hc, sliceStr_front _ _ (by omega) (by omega)]
        simp [hc]
      · rw [if_neg hc, if_pos (by omega), sliceStr_front _ _ (by omega) (by omega),
          sliceStr_back _ _ (by omega) (by omega)]
    · obtain ⟨p, hp⟩ : ∃ p : Nat, ((input.value.length : Int) + input.cursorPosition) = p + 1 :=
        ⟨((input.value.length : Int) + input.cursorPosition - 1).toNat, by omega⟩
      have hpl : p < input.value.length := by omega
      refine ⟨input.value.get ⟨p, hpl⟩, ?_⟩
      have e1 : ((input.value.length : Int) + input.cursorPosition - 1).toNat = p := by omega
      have e2 : ((input.value.length : Int) + input.cursorPosition).toNat = p + 1 := by omega
      rw [e1, e2]
      simp
  · intro hempty
    unfold keyBackspace
    split
    · simp [hactive, hempty]
    · rfl

/-- The instance of C4 from the specification: "abc", offset 0, key release. -/
theorem keyBackspace_deletes_before_cursor_witness :
    keyBackspace Action.Release (inputWindow [0x61, 0x62, 0x63] 0)
      = some { inputWindow [0x61, 0x62, 0x63] 0 with
          activeInput := some ⟨[0x61, 0x62], 0, true, true, true⟩ } :=
  ((keyBackspace_deletes_before_cursor (inputWindow [0x61, 0x62, 0x63] 0)
    ⟨[0x61, 0x62, 0x63], 0, true, true, false⟩ Action.Release rfl).1
    (Or.inr rfl) (by decide) (by decide) (by decide)).1

/-! ## Edge policy of the text-editing operations -/

/-- C2 as stated fails in two ways. Character input on an empty value with offset 0
succeeds and changes the value (it becomes the typed character); and with the
offset 1 on the value "a", which is above the range, character input, backspace
and paste all panic. -/
theorem text_edit_noop_counterexample :
    activeValue (inputWindow [] 0) = some []
    ∧ (charCallback 0x58 (inputWindow [] 0)).bind activeValue = some [0x58]
    ∧ (keyV Action.Release true [0x62] (inputWindow [] 0)).bind activeValue = some [0x62]
    ∧ (charCallback 0x58 (inputWindow [0x61] 1)).isNone = true
    ∧ (keyBackspace Action.Release (inputWindow [0x61] 1)).isNone = true
    ∧ (keyV Action.Release true [0x62] (inputWindow [0x61] 1)).isNone = true
    ∧ (charCallback 0x58 (inputWindow [0x61] (-2))).isNone = true := by
  decide

/-- C2, amended. For an active input whose cursor offset lies in `[-len(v), 0]`,
character input, backspace and paste never fail. Backspace never fails either for
any offset `≤ 0`, and leaves the value unchanged whenever the value is empty (the
whole window is then unchanged) or the offset is `≤ -len(v)`. Character input and
paste on an empty value at offset 0 are insertions: the value becomes the typed
character, respectively the clipboard text. -/
theorem text_edit_edge_policy (window : Window) (input : InputWidget)
    (hactive : window.activeInput = some input) (char : Int) (clipboard : GoString)
    (action : Action) (ctrl : Bool) :
    (-(input.value.length : Int) ≤ input.cursorPosition → input.cursorPosition ≤ 0 →
      (charCallback char window).isSome = true
      ∧ (keyBackspace action window).isSome = true
      ∧ (keyV action ctrl clipboard window).isSome = true)
    ∧ (input.cursorPosition ≤ 0 → (keyBackspace action window).isSome = true)
    ∧ (input.value = [] → keyBackspace action window = some window)
    ∧ (input.cursorPosition ≤ -(input.value.length : Int) →
        (keyBackspace action window).bind activeValue = some input.value)
    ∧ (input.value = [] → input.cursorPosition = 0 →
        (charCallback char window).bind activeValue = some (runeToString char)
        ∧ (keyV Action.Release true clipboard window).bind activeValue = some clipboard) := by
  have hback : input.cursorPosition ≤ 0 → (keyBackspace action window).isSome = true := by
    intro hhi
    unfold keyBackspace
    split
    · simp only [hactive]
      split
      · rename_i hlen
        split
        · rw [sliceStr_front _ _ (by omega) (by omega)]
          rfl
        · split
          · rw [sliceStr_front _ _ (by omega) (by omega),
              sliceStr_back _ _ (by omega) (by omega)]
            rfl
          · rfl
      · rfl
    · rfl
  refine ⟨?_, hback, ?_, ?_, ?_⟩
  · intro hlo hhi
    refine ⟨?_, hback hhi, ?_⟩
    · simp only [charCallback, hactive]
      rw [sliceStr_front _ _ (by omega) (by omega), sliceStr_back _ _ (by omega) (by omega)]
      rfl
    · unfold keyV
      split
      · simp only [hactive]
        split
        · rfl
        · rw [sliceStr_front _ _ (by omega) (by omega),
            sliceStr_back _ _ (by omega) (by omega)]
          rfl
      · rfl
  · intro hempty
    unfold keyBackspace
    split
    · simp [hactive, hempty]
    · rfl
  · intro hlow
    unfold keyBackspace
    split
    · simp only [hactive]
      split
      · rename_i hlen
        rw [if_neg (by omega), if_neg (by omega)]
        simp [activeValue]
      · simp [activeValue, hactive]
    · simp [activeValue, hactive]
  · intro hempty hzero
    constructor
    · simp only [charCallback, hactive, hempty, hzero]
      simp [sliceStr, activeValue]
    · simp [keyV, hactive, hempty, hzero, activeValue]

/-- An instance of the amended C2: the empty value at offset 0. -/
theorem text_edit_edge_policy_witness :
    (charCallback 0x58 (inputWindow [] 0)).isSome = true
    ∧ (keyBackspace Action.Release (inputWindow [] 0)).isSome = true
    ∧ (keyV Action.Release true [0x62] (inputWindow [] 0)).isSome = true :=
  (text_edit_edge_policy (inputWindow [] 0) ⟨[], 0, true, true, false⟩ rfl 0x58 [0x62]
    Action.Release true).1 (by decide) (by decide)

/-! ## Character input followed by backspace -/

/-- C5 at the failing input: on the empty value with offset 0, character input of
'é' (U+00E9, two bytes in UTF-8: C3 A9) followed by one backspace leaves the value
"\xC3", not the original empty value: backspace removes one byte, not the character
that was inserted. -/
theorem char_then_backspace_multibyte :
    activeValue (inputWindow [] 0) = some []
    ∧ (charCallback 0xE9 (inputWindow [] 0)).bind activeValue = some [0xC3, 0xA9]
    ∧ ((charCallback 0xE9 (inputWindow [] 0)).bind (keyBackspace Action.Release)).bind
        activeValue = some [0xC3] := by
  decide

/-- Character input with an in-range cursor offset, as an equation. -/
theorem charCallback_in_range (window : Window) (input : InputWidget) (char : Int)
    (hactive : window.activeInput = some input)
    (hlo : -(input.value.length : Int) ≤ input.cursorPosition)
    (hhi : input.cursorPosition ≤ 0) :
    charCallback char window = some { window with
      activeInput := some { input with
        value :=
          input.value.take ((input.value.length : Int) + input.cursorPosition).toNat
            ++ runeToString char
            ++ input.value.drop ((input.value.length : Int) + input.cursorPosition).toNat
        needsRepaint := true } } := by
  simp only [charCallback, hactive]
  rw [sliceStr_front _ _ (by omega) (by omega), sliceStr_back _ _ (by omega) (by omega)]

/-- Backspace with a byte before the cursor, as an equation. -/
theorem keyBackspace_in_range (window : Window) (input : InputWidget) (action : Action)
    (hactive : window.activeInput = some input)
    (hact : action = Action.Repeat ∨ action = Action.Release)
    (hlo : -(input.value.length : Int) < input.cursorPosition)
    (hhi : input.cursorPosition ≤ 0) :
    keyBackspace action window = some { window with
      activeInput := some { input with
        value :=
          input.value.take ((input.value.length : Int) + input.cursorPosition - 1).toNat
            ++ input.value.drop ((input.value.length : Int) + input.cursorPosition).toNat
        needsRepaint := true } } := by
  have hlen : 0 < input.value.length := by omega
  simp only [keyBackspace, hactive, if_pos hact, if_pos hlen]
  by_cases hc : input.cursorPosition = 0
  · rw [if_pos hc, sliceStr_front _ _ (by omega) (by omega)]
    simp [hc]
  · rw [if_neg hc, if_pos (by omega), sliceStr_front _ _ (by omega) (by omega),
      sliceStr_back _ _ (by omega) (by omega)]

/-- For a character that `string(char)` encodes in one byte (U+0000 to U+007F),
character input followed by one backspace restores the value. -/
theorem char_then_backspace_single_byte (window : Window) (input : InputWidget) (char : Int)
    (action : Action) (hactive : window.activeInput = some input)
    (hact : action = Action.Repeat ∨ action = Action.Release)
    (hlo : -(input.value.length : Int) ≤ input.cursorPosition)
    (hhi : input.cursorPosition ≤ 0) (h0 : 0 ≤ char) (h1 : char < 0x80) :
    ((charCallback char window).bind (keyBackspace action)).bind activeValue
      = some input.value := by
  have hrune : runeToString char = [UInt8.ofNat char.toNat] := by
    unfold runeToString
    rw [if_neg (by omega)]
    simp only
    rw [if_pos (by omega)]
  obtain ⟨p, hp⟩ : ∃ p : Nat, (input.value.length : Int) + input.cursorPosition = p :=
    ⟨((input.value.length : Int) + input.cursorPosition).toNat, by omega⟩
  have hpl : p ≤ input.value.length := by omega
  have hlen : (List.take p input.value ++ [UInt8.ofNat char.toNat]
      ++ List.drop p input.value).length = input.value.length + 1 := by
    simp
    omega
  rw [charCallback_in_range window input char hactive hlo hhi, hrune, hp]
  simp only [Int.toNat_ofNat, Option.some_bind]
  rw [keyBackspace_in_range _
    { input with
      value := List.take p input.value ++ [UInt8.ofNat char.toNat] ++ List.drop p input.value
      needsRepaint := true }
    action rfl hact
    (by
      show -((List.take p input.value ++ [UInt8.ofNat char.toNat]
        ++ List.drop p input.value).length : Int) < input.cursorPosition
      rw [hlen]; push_cast; omega)
    hhi]
  simp only [Option.some_bind, activeValue, Option.map_some', hlen]
  have e1 : (((input.value.length + 1 : Nat) : Int) + input.cursorPosition - 1).toNat = p := by
    push_cast; omega
  have e2 : (((input.value.length + 1 : Nat) : Int) + input.cursorPosition).toNat = p + 1 := by
    push_cast; omega
  rw [e1, e2]
  congr 1
  have ht : (List.take p input.value).length = p := by simp; omega
  rw [List.append_assoc, List.take_append_eq_append_take, List.drop_append_eq_append_drop]
  simp [ht]
  rw [List.drop_of_length_le (by omega)]
  simp only [List.nil_append, List.take_take, min_self, List.take_append_drop]

/-! ## Removing static overlays -/

/-- C1 at the failing inputs. With two static overlays registered under "a",
`RemoveStaticOverlay("a")` panics (slice bounds out of range) instead of
completing; with overlays "a", "a", "b" it completes and one overlay with reference
"a" is still in the list; with "a", "b", "a" it panics again. With a single match
it removes the overlay. -/
theorem removeStaticOverlay_shared_reference :
    staticRefs (staticWindow ["a", "a"]) = ["a", "a"]
    ∧ (RemoveStaticOverlay "a" (staticWindow ["a", "a"])).isNone = true
    ∧ (RemoveStaticOverlay "a" (staticWindow ["a", "a", "b"])).map staticRefs
        = some ["a", "b"]
    ∧ (RemoveStaticOverlay "a" (staticWindow ["a", "b", "a"])).isNone = true
    ∧ (RemoveStaticOverlay "a" (staticWindow ["b", "a", "c"])).map staticRefs
        = some ["b", "c"] := by
  decide

/-! ## Destruction -/

/-- C8 at the failing input. A created window with one registered tree, one
registered button, one dynamic and one static overlay is destroyed: the call
completes, the window is hidden and the button list is emptied, but the registered
tree, the dynamic overlay list, the static overlay list and both overlay flags are
left as they were. -/
theorem destroy_leaves_trees_and_overlays :
    (furnishedWindow.bind destroy).map
        (fun w => (w.visible, w.glw.isSome, w.context.isSome, w.registeredButtons))
      = some (false, false, false, [])
    ∧ (furnishedWindow.bind destroy).map
        (fun w => (w.registeredTrees, overlayRefs w, staticRefs w,
          w.hasActiveOverlay, w.hasStaticOverlay))
      = some ([⟨1⟩], ["menu"], ["chrome"], true, true) := by
  decide

/-! ## Compositing the widget tree -/

mutual
theorem compositeAll_buffer (buffer : Image) :
    (widget : Widget) → (compositeAll buffer widget).1
      = (widget.preorder.filter Widget.NeedsRepaint).foldl blendWidget buffer
  | .mk d t l w h b ws => by
    rw [compositeAll, Widget.preorder]
    simp only
    rw [compositeChildren_buffer]
    cases d
    · simp [compositeWidget, Widget.NeedsRepaint]
    · simp [compositeWidget, Widget.NeedsRepaint, blendWidget, Widget.boxRect, Widget.Buffer]
theorem compositeChildren_buffer (buffer : Image) :
    (ws : List Widget) → (compositeChildren buffer ws).1
      = ((preorderList ws).filter Widget.NeedsRepaint).foldl blendWidget buffer
  | [] => by simp [compositeChildren, preorderList]
  | c :: cs => by
    rw [compositeChildren, preorderList]
    simp only
    rw [compositeChildren_buffer, compositeAll_buffer]
    simp [List.filter_append, List.foldl_append]
end

mutual
theorem compositeAll_tree (buffer : Image) :
    (widget : Widget) → (compositeAll buffer widget).2 = widget.cleared
  | .mk d t l w h b ws => by
    rw [compositeAll, Widget.cleared]
    simp only
    rw [compositeChildren_tree]
    cases d <;> simp [compositeWidget, Widget.NeedsRepaint, Widget.SetNeedsRepaint,
      Widget.withWidgets]
theorem compositeChildren_tree (buffer : Image) :
    (ws : List Widget) → (compositeChildren buffer ws).2 = clearedList ws
  | [] => by simp [compositeChildren, clearedList]
  | c :: cs => by
    rw [compositeChildren, clearedList]
    simp only
    rw [compositeChildren_tree, compositeAll_tree]
end

mutual
theorem cleared_clean : (widget : Widget) → ∀ n ∈ widget.cleared.preorder,
    n.NeedsRepaint = false
  | .mk d t l w h b ws => by
    intro n hn
    rw [Widget.cleared, Widget.preorder] at hn
    rcases List.mem_cons.mp hn with h | h
    · rw [h]; rfl
    · exact clearedList_clean ws n h
theorem clearedList_clean : (ws : List Widget) → ∀ n ∈ preorderList (clearedList ws),
    n.NeedsRepaint = false
  | [] => by simp [clearedList, preorderList]
  | c :: cs => by
    intro n hn
    rw [clearedList, preorderList] at hn
    rcases List.mem_append.mp hn with h | h
    · exact cleared_clean c n h
    · exact clearedList_clean cs n h
end

/-- C10. `compositeAll` blends into the buffer exactly the widgets whose dirty flag
is set when it is called, each source-over at the rectangle
`(left, top)-(left+width, top+height)` of its computed box, in depth-first
pre-order over the whole tree (children are visited whether or not their parent is
dirty); the tree it leaves is the same tree with every dirty flag cleared, so no
widget of it needs repaint. -/
theorem compositeAll_blends_dirty_in_preorder (buffer : Image) (widget : Widget) :
    (compositeAll buffer widget).1
      = (widget.preorder.filter Widget.NeedsRepaint).foldl
          (fun acc n => drawOver acc n.boxRect n.Buffer ⟨0, 0⟩) buffer
    ∧ (compositeAll buffer widget).2 = widget.cleared
    ∧ ∀ n ∈ (compositeAll buffer widget).2.preorder, n.NeedsRepaint = false := by
  refine ⟨?_, compositeAll_tree buffer widget, ?_⟩
  · rw [compositeAll_buffer]
    rfl
  · rw [compositeAll_tree]
    exact cleared_clean widget

/-- An instance of C10 on the sample tree (clean root, dirty child, clean
grandchild): only the child is blended, and the tree comes back with every flag
cleared. -/
theorem compositeAll_blends_dirty_in_preorder_witness :
    (compositeAll (NewContext 4 4).im sampleTree).1
      = drawOver (NewContext 4 4).im ⟨⟨1, 1⟩, ⟨3, 3⟩⟩ (solidImage ⟨200, 0, 0, 255⟩) ⟨0, 0⟩
    ∧ (compositeAll (NewContext 4 4).im sampleTree).2 = sampleTree.cleared :=
  ⟨(compositeAll_blends_dirty_in_preorder (NewContext 4 4).im sampleTree).1,
    (compositeAll_blends_dirty_in_preorder (NewContext 4 4).im sampleTree).2.1⟩

/-! ## Source-over on images -/

theorem overChannel_zero (s sa : Fin 256) : overChannel s sa 0 = s := by
  apply Fin.ext
  have hs := s.isLt
  simp only [overChannel, Fin.ofNat, Fin.val_zero, zero_mul, Nat.zero_mod, Nat.zero_div,
    zero_add]
  have h1 : s.val * 257 % 4294967296 = s.val * 257 := Nat.mod_eq_of_lt (by omega)
  have h2 : s.val * 257 / 256 = s.val := by omega
  rw [h1, h2]
  exact Nat.mod_eq_of_lt hs

theorem over_zero (s : Color) : over s Color.zero = s := by
  cases s
  simp [over, Color.zero, overChannel_zero]

theorem Image.Same.refl (a : Image) : Image.Same a a := ⟨rfl, fun _ _ _ => rfl⟩

theorem Image.Same.trans {a b c : Image} (hab : Image.Same a b) (hbc : Image.Same b c) :
    Image.Same a c :=
  ⟨hab.1.trans hbc.1, fun x y h => (hab.2 x y h).trans (hbc.2 x y (hab.1 ▸ h))⟩

theorem drawOver_same {a b : Image} (h : Image.Same a b) (r : Rectangle) (src : Image)
    (sp : Point) : Image.Same (drawOver a r src sp) (drawOver b r src sp) := by
  refine ⟨h.1, fun x y hin => ?_⟩
  have hp := h.2 x y hin
  simp only [drawOver, h.1, hp]

theorem foldl_blendOverlay_same (overlays : List Overlay) :
    ∀ {a b : Image}, Image.Same a b →
      Image.Same (overlays.foldl blendOverlay a) (overlays.foldl blendOverlay b) := by
  induction overlays with
  | nil => intro a b h; exact h
  | cons o os ih => intro a b h; exact ih (drawOver_same h _ _ _)

theorem foldl_blendOverlay_rect (overlays : List Overlay) :
    ∀ a : Image, (overlays.foldl blendOverlay a).Rect = a.Rect := by
  induction overlays with
  | nil => intro a; rfl
  | cons o os ih => intro a; exact (ih _).trans rfl

theorem foldl_blendWidget_rect (ws : List Widget) :
    ∀ a : Image, (ws.foldl blendWidget a).Rect = a.Rect := by
  induction ws with
  | nil => intro a; rfl
  | cons o os ih => intro a; exact (ih _).trans rfl

theorem compositeAll_rect (buffer : Image) (widget : Widget) :
    (compositeAll buffer widget).1.Rect = buffer.Rect := by
  rw [compositeAll_buffer]
  exact foldl_blendWidget_rect _ _

theorem treeComposited_rect (context : Context) (rootFrame : Option Widget) :
    (treeComposited context rootFrame).Rect = context.im.Rect := by
  cases rootFrame with
  | none => rfl
  | some root => exact compositeAll_rect _ _

/-- The fresh buffer with the frame buffer drawn over it is pixel-identical to the
frame buffer, for a frame buffer whose bounds start at the origin. -/
theorem freshCopy_same (img : Image) (h : img.Rect.Min = ZP) :
    Image.Same (freshCopy img) img := by
  refine ⟨rfl, fun x y hin => ?_⟩
  have hin2 : Point.In x y img.Rect = true := hin
  simp only [freshCopy, drawOver, NewRGBA, h, ZP, sub_zero, add_zero, hin2, Bool.and_self,
    if_true]
  exact over_zero _
/-! ## The frame buffer of `generateTexture` -/

theorem overlayPass_rect (flag : Bool) (overlays : List Overlay) (a : Image) :
    (overlayPass flag overlays a).Rect = a.Rect := by
  unfold overlayPass
  cases flag
  · rfl
  · exact foldl_blendOverlay_rect _ _

theorem overlayPass_gated (flag : Bool) (overlays : List Overlay) {a b : Image}
    (horigin : b.Rect.Min = ZP) (hab : Image.Same a b) :
    Image.Same (overlayPass flag overlays a)
      ((if flag then overlays else []).foldl blendOverlay b) := by
  unfold overlayPass
  cases flag
  · exact hab
  · exact foldl_blendOverlay_same overlays
      ((freshCopy_same a (hab.1 ▸ horigin)).trans hab)

theorem gated_of_cover (flag : Bool) (overlays : List Overlay)
    (hflag : overlays ≠ [] → flag = true) : (if flag then overlays else []) = overlays := by
  cases flag
  · by_contra hne
    exact Bool.false_ne_true (hflag (fun h => hne (by simp [h])))
  · rfl

theorem generateTexture_live (tex : Nat) (window : Window) (backend : GLBackend)
    (context : Context) (hbackend : window.backend = some backend)
    (hcontext : window.context = some context) :
    generateTexture tex window = some { window with
      context := some ⟨treeComposited context window.rootFrame⟩
      rootFrame := window.rootFrame.map Widget.cleared
      frameBuffer := some (overlayPass window.hasActiveOverlay window.overlays
        (overlayPass window.hasStaticOverlay window.staticOverlays
          (treeComposited context window.rootFrame)))
      backend := some ⟨tex⟩ } := by
  unfold generateTexture
  simp only [hbackend, hcontext]
  cases hroot : window.rootFrame with
  | none => rfl
  | some root =>
    simp only [Option.map_some', treeComposited, overlayPass, compositeAll_tree]

/-- C6. For a live window (backend and context present, the context image anchored
at the origin as `gg.NewContext` allocates it), `generateTexture` produces a frame
buffer that is pixel-identical to the tree-composited context image with the
overlays blended source-over at their stored positions in the order: the static
overlays in registration order (when the static flag is set), then the dynamic
overlays in registration order (when the dynamic flag is set). Whenever the flags
agree with the lists, as the overlay operations keep them, that is: every static
overlay in registration order, then every dynamic overlay in registration order.
Later in that order means drawn above. -/
theorem generateTexture_overlay_order (tex : Nat) (window : Window) (backend : GLBackend)
    (context : Context) (hbackend : window.backend = some backend)
    (hcontext : window.context = some context) (horigin : context.im.Rect.Min = ZP) :
    ∃ window1 frameBuffer,
      generateTexture tex window = some window1
      ∧ window1.frameBuffer = some frameBuffer
      ∧ Image.Same frameBuffer
          (((if window.hasStaticOverlay then window.staticOverlays else [])
              ++ (if window.hasActiveOverlay then window.overlays else [])).foldl
            (fun acc overlay =>
              drawOver acc (overlay.buffer.Rect.Add overlay.position) overlay.buffer ZP)
            (treeComposited context window.rootFrame))
      ∧ (flagsCover window →
          Image.Same frameBuffer
            ((window.staticOverlays ++ window.overlays).foldl
              (fun acc overlay =>
                drawOver acc (overlay.buffer.Rect.Add overlay.position) overlay.buffer ZP)
              (treeComposited context window.rootFrame))) := by
  have htree : (treeComposited context window.rootFrame).Rect.Min = ZP := by
    rw [treeComposited_rect]; exact horigin
  have h1 := overlayPass_gated window.hasStaticOverlay window.staticOverlays htree
    (Image.Same.refl _)
  have h2 : ((if window.hasStaticOverlay then window.staticOverlays else []).foldl blendOverlay
      (treeComposited context window.rootFrame)).Rect.Min = ZP := by
    rw [foldl_blendOverlay_rect]; exact htree
  have h3 := overlayPass_gated window.hasActiveOverlay window.overlays h2 h1
  refine ⟨_, _, generateTexture_live tex window backend context hbackend hcontext, rfl, ?_, ?_⟩
  · rw [List.foldl_append]
    exact h3
  · intro hflags
    rw [gated_of_cover _ _ hflags.1, gated_of_cover _ _ hflags.2] at h3
    rw [List.foldl_append]
    exact h3

/-- An instance of C6: the sample window, with one static and one dynamic overlay,
whose flags agree with its lists. -/
theorem generateTexture_overlay_order_witness :
    ∃ window1 frameBuffer,
      generateTexture 7 sampleWindow = some window1
      ∧ window1.frameBuffer = some frameBuffer
      ∧ Image.Same frameBuffer
          ((sampleWindow.staticOverlays ++ sampleWindow.overlays).foldl
            (fun acc overlay =>
              drawOver acc (overlay.buffer.Rect.Add overlay.position) overlay.buffer ZP)
            (treeComposited (NewContext 4 4) sampleWindow.rootFrame)) := by
  obtain ⟨window1, frameBuffer, hrun, hframe, _, hall⟩ :=
    generateTexture_overlay_order 7 sampleWindow ⟨0⟩ (NewContext 4 4) rfl rfl (by decide)
  exact ⟨window1, frameBuffer, hrun, hframe, hall ⟨fun _ => rfl, fun _ => rfl⟩⟩

/-- The frame buffer of the sample window, pixel by pixel along the diagonal: the
static overlay (red, at the origin) covers the tree at `(0, 0)`; where the dynamic
overlay (blue, at `(1, 1)`) overlaps the static one, at `(1, 1)`, the dynamic overlay
wins; at `(3, 3)` neither overlay reaches and the pixel is that of the context
image, into which the dirty child was composited only up to `(2, 2)`. -/
theorem sampleWindow_frame_pixels :
    framePixel (generateTexture 7 sampleWindow) 0 0 = some ⟨255, 0, 0, 255⟩
    ∧ framePixel (generateTexture 7 sampleWindow) 1 1 = some ⟨0, 0, 255, 255⟩
    ∧ framePixel (generateTexture 7 sampleWindow) 2 2 = some ⟨0, 0, 255, 255⟩
    ∧ framePixel (generateTexture 7 sampleWindow) 3 3 = some ⟨0, 0, 0, 0⟩
    ∧ framePixel (generateTexture 7 { sampleWindow with
        hasStaticOverlay := false, staticOverlays := []
        hasActiveOverlay := false, overlays := [] }) 1 1 = some ⟨200, 0, 0, 255⟩ := by
  decide

/-! ## Compositing a clean tree -/

mutual
theorem cleared_of_clean : (widget : Widget) →
    (∀ n ∈ widget.preorder, n.NeedsRepaint = false) → widget.cleared = widget
  | .mk d t l w h b ws => by
    intro hclean
    rw [Widget.preorder] at hclean
    have hd : d = false := hclean _ (List.mem_cons_self _ _)
    have hws := clearedList_of_clean ws (fun n hn => hclean n (List.mem_cons_of_mem _ hn))
    rw [Widget.cleared, hws, hd]
theorem clearedList_of_clean : (ws : List Widget) →
    (∀ n ∈ preorderList ws, n.NeedsRepaint = false) → clearedList ws = ws
  | [] => fun _ => rfl
  | c :: cs => by
    intro hclean
    rw [preorderList] at hclean
    rw [clearedList, cleared_of_clean c (fun n hn => hclean n (List.mem_append_left _ hn)),
      clearedList_of_clean cs (fun n hn => hclean n (List.mem_append_right _ hn))]
end

theorem allClean_iff (widget : Widget) :
    widget.allClean = true ↔ ∀ n ∈ widget.preorder, n.NeedsRepaint = false := by
  simp [Widget.allClean, List.all_eq_true]

theorem compositeAll_of_clean (buffer : Image) (widget : Widget)
    (hclean : widget.allClean = true) : compositeAll buffer widget = (buffer, widget) := by
  have h := (allClean_iff widget).mp hclean
  have hfilter : widget.preorder.filter Widget.NeedsRepaint = [] := by
    rw [List.filter_eq_nil_iff]
    intro n hn
    simp [h n hn]
  apply Prod.ext
  · rw [compositeAll_buffer, hfilter]; rfl
  · rw [compositeAll_tree]; exact cleared_of_clean widget h

/-- C7. For a live window in which no widget of the root tree needs repaint,
`generateTexture` run twice in succession (whatever texture names the driver hands
out) succeeds both times, the second frame buffer is the first one pixel for pixel
(and is pixel-identical to it in particular), and the context, with its image, is
after each run what it was before. -/
theorem generateTexture_twice_same_frame (tex1 tex2 : Nat) (window : Window)
    (backend : GLBackend) (context : Context) (hbackend : window.backend = some backend)
    (hcontext : window.context = some context)
    (hclean : ∀ root, window.rootFrame = some root → root.allClean = true) :
    ∃ window1 window2 frameBuffer1 frameBuffer2,
      generateTexture tex1 window = some window1
      ∧ generateTexture tex2 window1 = some window2
      ∧ window1.frameBuffer = some frameBuffer1
      ∧ window2.frameBuffer = some frameBuffer2
      ∧ frameBuffer2 = frameBuffer1
      ∧ Image.Same frameBuffer2 frameBuffer1
      ∧ window1.context = some context
      ∧ window2.context = some context
      ∧ window1.overlays = window.overlays ∧ window1.staticOverlays = window.staticOverlays := by
  obtain ⟨im⟩ := context
  have htree : treeComposited ⟨im⟩ window.rootFrame = im
      ∧ window.rootFrame.map Widget.cleared = window.rootFrame := by
    cases hroot : window.rootFrame with
    | none => exact ⟨rfl, rfl⟩
    | some root =>
      have hc := hclean root hroot
      constructor
      · simp only [treeComposited, compositeAll_of_clean _ _ hc]
      · simp only [Option.map_some', cleared_of_clean root ((allClean_iff root).mp hc)]
  have h1 := generateTexture_live tex1 window backend ⟨im⟩ hbackend hcontext
  rw [htree.1, htree.2] at h1
  refine ⟨_, _, _, _, h1, generateTexture_live tex2 _ ⟨tex1⟩ ⟨im⟩ rfl rfl, rfl, rfl, ?_, ?_,
    rfl, ?_, rfl, rfl⟩
  · simp only [htree.1]
  · simp only [htree.1]
    exact Image.Same.refl _
  · simp only [htree.1]

/-- An instance of C7: the sample window with a clean tree. -/
theorem generateTexture_twice_same_frame_witness :
    ∃ window1 window2 frameBuffer1 frameBuffer2,
      generateTexture 7 cleanWindow = some window1
      ∧ generateTexture 8 window1 = some window2
      ∧ window1.frameBuffer = some frameBuffer1
      ∧ window2.frameBuffer = some frameBuffer2
      ∧ frameBuffer2 = frameBuffer1
      ∧ Image.Same frameBuffer2 frameBuffer1
      ∧ window1.context = some (NewContext 4 4)
      ∧ window2.context = some (NewContext 4 4)
      ∧ window1.overlays = cleanWindow.overlays
      ∧ window1.staticOverlays = cleanWindow.staticOverlays :=
  generateTexture_twice_same_frame 7 8 cleanWindow ⟨0⟩ (NewContext 4 4) rfl rfl
    (fun root hroot => by
      have h : root = sampleTree.cleared := (Option.some.inj hroot).symm
      rw [h]
      decide)

/-! ## Device size -/

theorem bitLenAux_le (fuel : Nat) : ∀ (n k : Nat), n < 2 ^ k → bitLenAux fuel n ≤ k := by
  induction fuel with
  | zero => intro n k _; simp [bitLenAux]
  | succ fuel ih =>
    intro n k hn
    unfold bitLenAux
    split
    · exact Nat.zero_le _
    · rename_i hne
      cases k with
      | zero => simp at hn; exact absurd hn hne
      | succ k =>
        have hhalf : n / 2 < 2 ^ k := by
          rw [Nat.pow_succ] at hn
          omega
        exact Nat.succ_le_succ (ih (n / 2) k hhalf)

/-- A value whose significand fits in 24 bits is not changed by rounding. -/
theorem F32.round_exact (m e : Int) (h : m.natAbs < 2 ^ 24) : F32.round m e = ⟨m, e⟩ := by
  have hk : bitLen m.natAbs - 24 = 0 := Nat.sub_eq_zero_of_le (bitLenAux_le _ _ _ h)
  simp only [F32.round, hk, if_true]

/-- When the logical size and the exact product fit in 24 bits, the device size is the
exact product with its fraction discarded. -/
theorem scaleDim_exact (n : Int) (scale : F32) (hn : n.natAbs < 2 ^ 24)
    (hprod : (n * scale.m).natAbs < 2 ^ 24) :
    scaleDim n scale = F32.toInt ⟨n * scale.m, scale.e⟩ := by
  simp only [scaleDim, F32.ofInt, F32.mul, F32.round_exact n 0 hn, zero_add,
    F32.round_exact _ _ hprod]

/-- With the scale 1.0 a logical size below `2 ^ 24` is its own device size. -/
theorem scaleDim_one (n : Int) (hn : n.natAbs < 2 ^ 24) : scaleDim n F32.one = n := by
  rw [scaleDim_exact n F32.one hn (by simpa [F32.one] using hn)]
  simp [F32.toInt, F32.one]

/-- C9 as stated fails in two ways. Creation leaves the reflow flag clear (it is
`Show` that sets it). And the device size is the float32 product with its fraction
discarded, not rounded: a resize to the logical width 303 at content scale 1.25
(exact product 378.75) stores 378, where rounding gives 379. -/
theorem device_size_counterexample :
    (CreateNewWindow "main" 800 600 false (some unitSurface) ⟨0⟩ 1).map
        (fun w => w.needsReflow) = some false
    ∧ (sizeCallback scaledSurface 303 303 { sampleWindow with hiDPI := true }).width = 378
    ∧ roundedDim 303 scaledSurface.xscale = 379
    ∧ (CreateNewWindow "main" 303 303 true (some scaledSurface) ⟨0⟩ 1).map
        (fun w => w.width) = some 378 := by
  decide

/-- C9, amended. On creation (with a surface) and on every resize callback with
logical size `(width, height)`, the stored device size is
`(int(float32(width) * xscale), int(float32(height) * yscale))`, the float32
product with its fraction discarded, where the scale is the content scale of the
surface when hiDPI is enabled and 1.0 otherwise; the context is reallocated at
exactly the stored size (creation then composites into it, which leaves an empty
window's image as allocated); the resize callback sets the reflow flag and creation
leaves it clear. Whenever the logical size and the exact product fit in 24 bits the
stored size is the exact product truncated toward zero; with hiDPI disabled a
logical size below `2 ^ 24` is stored unchanged, and 800x600 gives 800x600. -/
theorem device_size_truncated (title : String) (width height : Int) (hiDPI : Bool)
    (surface : GlfwWindow) (backend : GLBackend) (tex : Nat) (window : Window) :
    (∃ created, CreateNewWindow title width height hiDPI (some surface) backend tex
        = some created
      ∧ created.width = F32.toInt (F32.mul (F32.ofInt width)
          (if hiDPI then surface.xscale else F32.one))
      ∧ created.height = F32.toInt (F32.mul (F32.ofInt height)
          (if hiDPI then surface.yscale else F32.one))
      ∧ created.context = some (NewContext created.width created.height)
      ∧ created.needsReflow = false
      ∧ (hiDPI = false → width.natAbs < 2 ^ 24 → height.natAbs < 2 ^ 24 →
          created.width = width ∧ created.height = height))
    ∧ ((sizeCallback surface width height window).width
          = F32.toInt (F32.mul (F32.ofInt width)
              (if window.hiDPI then surface.xscale else F32.one))
      ∧ (sizeCallback surface width height window).height
          = F32.toInt (F32.mul (F32.ofInt height)
              (if window.hiDPI then surface.yscale else F32.one))
      ∧ (sizeCallback surface width height window).context
          = some (NewContext (sizeCallback surface width height window).width
              (sizeCallback surface width height window).height)
      ∧ (sizeCallback surface width height window).needsReflow = true
      ∧ (window.hiDPI = false → width.natAbs < 2 ^ 24 → height.natAbs < 2 ^ 24 →
          (sizeCallback surface width height window).width = width
          ∧ (sizeCallback surface width height window).height = height)
      ∧ (window.hiDPI = true → width.natAbs < 2 ^ 24 →
          (width * surface.xscale.m).natAbs < 2 ^ 24 →
          (sizeCallback surface width height window).width
            = F32.toInt ⟨width * surface.xscale.m, surface.xscale.e⟩))
    ∧ (CreateNewWindow "main" 800 600 false (some surface) backend tex).map
        (fun w => (w.width, w.height)) = some (800, 600)
    ∧ ((sizeCallback surface 800 600 { window with hiDPI := false }).width,
        (sizeCallback surface 800 600 { window with hiDPI := false }).height) = (800, 600) := by
  refine ⟨⟨_, rfl, rfl, rfl, rfl, rfl, ?_⟩, ⟨rfl, rfl, rfl, rfl, ?_, ?_⟩, ?_, ?_⟩
  · intro hd hw hh
    subst hd
    exact ⟨scaleDim_one width hw, scaleDim_one height hh⟩
  · intro hd hw hh
    simp only [sizeCallback, hd]
    exact ⟨scaleDim_one width hw, scaleDim_one height hh⟩
  · intro hd hw hprod
    simp only [sizeCallback, hd, if_true]
    exact scaleDim_exact width surface.xscale hw hprod
  · simp only [CreateNewWindow, generateTexture, RecreateContext, Option.map_some',
      Bool.false_eq_true, if_false]
    rw [scaleDim_one 800 (by decide), scaleDim_one 600 (by decide)]
  · simp only [sizeCallback, RecreateContext, Bool.false_eq_true, if_false]
    rw [scaleDim_one 800 (by decide), scaleDim_one 600 (by decide)]

/-- An instance of the amended C9: a resize to 800x600 without hiDPI. -/
theorem device_size_truncated_witness :
    (sizeCallback scaledSurface 800 600 sampleWindow).width = 800
    ∧ (sizeCallback scaledSurface 800 600 sampleWindow).height = 600 :=
  (device_size_truncated "main" 800 600 false scaledSurface ⟨0⟩ 1 sampleWindow).2.1.2.2.2.2.1
    rfl (by decide) (by decide)

/-! ## The overlay flags agree with the overlay lists -/

theorem flagsCover_zeroWindow : flagsCover zeroWindow :=
  ⟨fun h => absurd rfl h, fun h => absurd rfl h⟩

theorem flagsCover_AddOverlay (overlay : Overlay) (window : Window) (h : flagsCover window) :
    flagsCover (AddOverlay overlay window) :=
  ⟨h.1, fun _ => rfl⟩

theorem flagsCover_AddStaticOverlay (overlay : Overlay) (window : Window)
    (h : flagsCover window) : flagsCover (AddStaticOverlay overlay window) :=
  ⟨fun _ => rfl, h.2⟩

theorem flagsCover_RemoveOverlay (found : Option Nat) (window : Window)
    (h : flagsCover window) : flagsCover (RemoveOverlay found window) := by
  refine ⟨h.1, ?_⟩
  intro hne
  simp only [RemoveOverlay] at hne ⊢
  have hlen : ¬ (match found with
      | some idx =>
        if idx < window.overlays.length then
          window.overlays.take idx ++ window.overlays.drop (idx + 1)
        else window.overlays
      | none => window.overlays).length < 1 := by
    intro hlt
    exact hne (List.length_eq_zero.mp (by omega))
  rw [if_neg hlen]
  apply h.2
  intro hnil
  apply hne
  cases found with
  | none => exact hnil
  | some idx => simp [hnil]

theorem flagsCover_RemoveStaticOverlay (ref : String) (window window1 : Window)
    (h : flagsCover window) (hrun : RemoveStaticOverlay ref window = some window1) :
    flagsCover window1 := by
  unfold RemoveStaticOverlay at hrun
  split at hrun
  · exact absurd hrun (by simp)
  · rename_i arr len hfold
    have hw := Option.some.inj hrun
    subst hw
    refine ⟨?_, h.2⟩
    intro hne
    simp only at hne ⊢
    have hlen : ¬ (List.take len arr).length < 1 := by
      intro hlt
      exact hne (List.length_eq_zero.mp (by omega))
    rw [if_neg hlen]
    apply h.1
    intro hnil
    rw [hnil] at hfold
    simp only [List.length_nil, List.range_zero, List.foldlM_nil] at hfold
    have hpair := Option.some.inj hfold
    have harr : arr = [] := (congrArg Prod.fst hpair).symm
    apply hne
    simp [harr]

theorem flagsCover_generateTexture (tex : Nat) (window window1 : Window)
    (h : flagsCover window) (hrun : generateTexture tex window = some window1) :
    flagsCover window1 := by
  unfold generateTexture at hrun
  split at hrun
  · have hw := Option.some.inj hrun
    subst hw
    exact h
  · exact absurd hrun (by simp)

/-! ## A created window is ready for compositing -/

theorem F32.round_nonneg (m e : Int) (h : 0 ≤ m) : 0 ≤ (F32.round m e).m := by
  unfold F32.round
  simp only
  split
  · exact h
  · exact Int.mul_nonneg (Int.sign_nonneg.mpr h) (Int.ofNat_nonneg _)

theorem F32.toInt_nonneg (f : F32) (h : 0 ≤ f.m) : 0 ≤ f.toInt := by
  unfold F32.toInt
  split
  · exact Int.mul_nonneg h (pow_nonneg (by decide) _)
  · exact Int.mul_nonneg (Int.sign_nonneg.mpr h) (Int.ofNat_nonneg _)

theorem scaleDim_nonneg (n : Int) (scale : F32) (hn : 0 ≤ n) (hs : 0 ≤ scale.m) :
    0 ≤ scaleDim n scale := by
  unfold scaleDim
  apply F32.toInt_nonneg
  unfold F32.mul
  apply F32.round_nonneg
  exact Int.mul_nonneg (F32.round_nonneg n 0 hn) hs

theorem NewContext_origin (width height : Int) (hw : 0 ≤ width) (hh : 0 ≤ height) :
    (NewContext width height).im.Rect.Min = ZP := by
  simp [NewContext, NewRGBA, Rect, ZP, hw, hh]

/-- A window created with a non-negative logical size on a surface with non-negative
content scale has a backend and a context whose image is anchored at the origin, and
its overlay flags agree with its (empty) overlay lists: the conditions under which
the frame buffer of `generateTexture` is described above. -/
theorem CreateNewWindow_ready (title : String) (width height : Int) (hiDPI : Bool)
    (surface : GlfwWindow) (backend : GLBackend) (tex : Nat) (hw : 0 ≤ width)
    (hh : 0 ≤ height) (hx : 0 ≤ surface.xscale.m) (hy : 0 ≤ surface.yscale.m) :
    ∃ window context,
      CreateNewWindow title width height hiDPI (some surface) backend tex = some window
      ∧ window.backend = some ⟨tex⟩
      ∧ window.context = some context
      ∧ context.im.Rect.Min = ZP
      ∧ flagsCover window := by
  refine ⟨_, _, rfl, rfl, rfl, ?_, ⟨fun h => absurd rfl h, fun h => absurd rfl h⟩⟩
  apply NewContext_origin
  · apply scaleDim_nonneg _ _ hw
    cases hiDPI
    · show (0 : Int) ≤ 1
      decide
    · exact hx
  · apply scaleDim_nonneg _ _ hh
    cases hiDPI
    · show (0 : Int) ≤ 1
      decide
    · exact hy

/-- The resize callback keeps a window ready when the new size and the scale are
non-negative. -/
theorem sizeCallback_origin (surface : GlfwWindow) (width height : Int) (window : Window)
    (hw : 0 ≤ width) (hh : 0 ≤ height) (hx : 0 ≤ surface.xscale.m)
    (hy : 0 ≤ surface.yscale.m) :
    ∃ context, (sizeCallback surface width height window).context = some context
      ∧ context.im.Rect.Min = ZP := by
  refine ⟨_, rfl, ?_⟩
  apply NewContext_origin
  · apply scaleDim_nonneg _ _ hw
    cases window.hiDPI
    · show (0 : Int) ≤ 1
      decide
    · exact hx
  · apply scaleDim_nonneg _ _ hh
    cases window.hiDPI
    · show (0 : Int) ≤ 1
      decide
    · exact hy

/-- After `generateTexture` the window is still live, its context image is still
anchored at the origin and its flags still agree with its lists: the conditions of
the frame-buffer theorems hold again for the next frame. -/
theorem generateTexture_keeps_ready (tex : Nat) (window : Window) (backend : GLBackend)
    (context : Context) (hbackend : window.backend = some backend)
    (hcontext : window.context = some context) (horigin : context.im.Rect.Min = ZP)
    (hflags : flagsCover window) :
    ∃ window1 context1,
      generateTexture tex window = some window1
      ∧ window1.backend = some ⟨tex⟩
      ∧ window1.context = some context1
      ∧ context1.im.Rect.Min = ZP
      ∧ flagsCover window1 := by
  refine ⟨_, _, generateTexture_live tex window backend context hbackend hcontext, rfl, rfl,
    ?_, hflags⟩
  show (treeComposited context window.rootFrame).Rect.Min = ZP
  rw [treeComposited_rect]
  exact horigin

/-! ## `RemoveStaticOverlay` when at most one overlay carries the reference -/

theorem removeStaticStep_skip (ref : String) (arr : List Overlay) (len idx : Nat)
    (c : Overlay) (hget : arr.get? idx = some c) (hne : c.ref ≠ ref) :
    removeStaticStep ref (arr, len) idx = some (arr, len) := by
  simp only [removeStaticStep, hget, if_neg hne]

theorem foldlM_removeStaticStep_skip (ref : String) (arr : List Overlay) (len : Nat) :
    ∀ indices : List Nat,
      (∀ idx ∈ indices, ∃ c, arr.get? idx = some c ∧ c.ref ≠ ref) →
      indices.foldlM (removeStaticStep ref) (arr, len) = some (arr, len) := by
  intro indices
  induction indices with
  | nil => intro _; rfl
  | cons i is ih =>
    intro h
    obtain ⟨c, hget, hne⟩ := h i (List.mem_cons_self _ _)
    rw [List.foldlM_cons, removeStaticStep_skip ref arr len i c hget hne]
    exact ih (fun idx hidx => h idx (List.mem_cons_of_mem _ hidx))

/-- When no static overlay carries the reference, `RemoveStaticOverlay` completes and
leaves the list as it is. -/
theorem RemoveStaticOverlay_absent (ref : String) (window : Window)
    (habsent : ∀ o ∈ window.staticOverlays, o.ref ≠ ref) :
    RemoveStaticOverlay ref window = some { window with
      hasStaticOverlay :=
        if window.staticOverlays.length < 1 then false else window.hasStaticOverlay } := by
  unfold RemoveStaticOverlay
  rw [foldlM_removeStaticStep_skip]
  · simp only [List.take_length]
  · intro idx hidx
    have hlt : idx < window.staticOverlays.length := List.mem_range.mp hidx
    exact ⟨window.staticOverlays.get ⟨idx, hlt⟩, List.get?_eq_get hlt,
      habsent _ (List.get_mem _ _ _)⟩

/-- When exactly one static overlay carries the reference, `RemoveStaticOverlay`
completes and removes it, keeping the others in order. -/
theorem RemoveStaticOverlay_single (ref : String) (window : Window)
    (before after : List Overlay) (x : Overlay)
    (hlist : window.staticOverlays = before ++ x :: after) (hx : x.ref = ref)
    (hbefore : ∀ o ∈ before, o.ref ≠ ref) (hafter : ∀ o ∈ after, o.ref ≠ ref) :
    RemoveStaticOverlay ref window = some { window with
      staticOverlays := before ++ after
      hasStaticOverlay :=
        if (before ++ after).length < 1 then false else window.hasStaticOverlay } := by
  unfold RemoveStaticOverlay
  have hlen : window.staticOverlays.length = before.length + (1 + after.length) := by
    rw [hlist]; simp; omega
  have hrange : List.range window.staticOverlays.length
      = List.range before.length
        ++ (before.length :: (List.range after.length).map (fun j => before.length + 1 + j)) := by
    rw [hlen, List.range_add, List.range_add]
    simp [List.range_succ, Nat.add_assoc]
  rw [hrange, List.foldlM_append, hlist]
  rw [foldlM_removeStaticStep_skip]
  · simp only [Option.some_bind, Option.bind_eq_bind, List.foldlM_cons]
    have hstep : removeStaticStep ref
        (before ++ x :: after, (before ++ x :: after).length) before.length
        = some (before ++ after ++ List.drop after.length (x :: after),
            before.length + after.length) := by
      have hget : (before ++ x :: after).get? before.length = some x := by
        rw [List.get?_eq_getElem?, List.getElem?_append_right (le_refl _)]
        simp
      simp only [removeStaticStep, hget, hx, if_true]
      have hl : (before ++ x :: after).length = before.length + after.length + 1 := by
        simp; omega
      rw [hl, if_pos (by omega)]
      have e1 : before.length + after.length + 1 - (before.length + 1) = after.length := by
        omega
      have e2 : before.length + after.length + 1 - 1 = before.length + after.length := by
        omega
      have h1 : List.take before.length (before ++ x :: after) = before := List.take_left _ _
      have h2 : List.drop (before.length + 1) (before ++ x :: after) = after := by
        rw [List.drop_append]; rfl
      have h3 : List.drop (before.length + after.length) (before ++ x :: after)
          = List.drop after.length (x :: after) := List.drop_append _
      rw [e1, e2, h1, h2, h3, List.take_length]
    rw [hstep]
    simp only [Option.some_bind]
    rw [foldlM_removeStaticStep_skip]
    · have htake : List.take (before.length + after.length)
          (before ++ after ++ List.drop after.length (x :: after)) = before ++ after := by
        rw [List.append_assoc, List.take_append, List.take_left]
      simp only [htake]
    · intro idx hidx
      obtain ⟨j, hj, rfl⟩ := List.mem_map.mp hidx
      have hjlt : j < after.length := List.mem_range.mp hj
      have hbound : before.length + 1 + j
          < (before ++ after ++ List.drop after.length (x :: after)).length := by
        simp
        omega
      obtain ⟨c, hc⟩ : ∃ c, (before ++ after ++ List.drop after.length (x :: after)).get?
          (before.length + 1 + j) = some c := ⟨_, List.get?_eq_get hbound⟩
      refine ⟨c, hc, hafter c ?_⟩
      rw [List.get?_eq_getElem?, List.append_assoc,
        List.getElem?_append_right (by omega)] at hc
      rcases List.mem_append.mp (List.getElem?_mem hc) with h | h
      · exact h
      · obtain ⟨m, hm⟩ : ∃ m, after.length = m + 1 := ⟨after.length - 1, by omega⟩
        rw [hm, List.drop_succ_cons] at h
        exact List.mem_of_mem_drop h
  · intro idx hidx
    have hlt : idx < before.length := List.mem_range.mp hidx
    refine ⟨before.get ⟨idx, hlt⟩, ?_, hbefore _ (List.get_mem _ _ _)⟩
    rw [List.get?_eq_getElem?, List.getElem?_append_left hlt, List.getElem?_eq_getElem hlt]
    rfl

end Mustard
